import Mathlib

/-!
Verification of the session registry and signaling router of the
home-camera relay server (`src/unnamed/part_000`, the full server variant:
connection handler, create-stream, join-stream, leave-stream,
disconnect, and the periodic sweep).

The JavaScript `activeStreams` Map is embedded as an insertion-ordered
association list (JS Maps preserve insertion order; `set` of a fresh key
appends, in-place mutation of a looked-up session leaves its position
unchanged, `delete` removes the entry).  A JS `Set` of viewer ids is an
insertion-ordered duplicate-free list (`add` appends when absent,
`delete` removes).  Socket.io emits are recorded as an ordered list of
`Emit` values; `socket.to(x)` excludes the sender, `socket.emit` targets
the sender itself, `socket.broadcast.emit` reaches everyone but the
sender.  Timestamps are milliseconds as `Nat`.
-/

namespace HomeCamera

/-- A participant (socket) id, as assigned by the transport. -/
abbrev Pid := String

/-- A caller-chosen stream (session) id. -/
abbrev StreamId := String

/-- One entry of `activeStreams`: `{ streamer, viewers: Set, createdAt }`. -/
structure Session where
  streamer : Pid
  viewers : List Pid
  createdAt : Nat
deriving DecidableEq

/-- The registry: the `activeStreams` Map as an insertion-ordered assoc list. -/
abbrev Registry := List (StreamId × Session)

/-- `activeStreams.get(id)`: first (unique, for well-formed maps) entry. -/
def findStream (id : StreamId) : Registry → Option Session
  | [] => none
  | e :: rest => if e.1 = id then some e.2 else findStream id rest

/-- In-place mutation of the session stored under `id` (JS object mutation
through the reference returned by `get`): the first matching entry is
replaced, every other entry and the key order are untouched. -/
def updateStream (id : StreamId) (s : Session) : Registry → Registry
  | [] => []
  | e :: rest => if e.1 = id then (id, s) :: rest else e :: updateStream id s rest

/-- `activeStreams.delete(id)`. -/
def deleteStream (id : StreamId) (l : Registry) : Registry :=
  l.filter (fun e => decide (¬ e.1 = id))

/-- JS `Set.add`: append if absent, no-op if already present. -/
def setAdd (l : List Pid) (p : Pid) : List Pid :=
  if p ∈ l then l else l ++ [p]

/-- Socket.io room bookkeeping (`socket.join(room)` membership). -/
abbrev Rooms := List (StreamId × List Pid)

/-- Members of a room (empty when the room does not exist yet). -/
def roomMembers (rooms : Rooms) (room : StreamId) : List Pid :=
  match rooms with
  | [] => []
  | e :: rest => if e.1 = room then e.2 else roomMembers rest room

/-- `socket.join(room)`. -/
def joinRoom (room : StreamId) (p : Pid) : Rooms → Rooms
  | [] => [(room, [p])]
  | e :: rest => if e.1 = room then (room, setAdd e.2 p) :: rest else e :: joinRoom room p rest

/-- Socket.io removes a disconnected socket from every room. -/
def leaveAllRooms (p : Pid) (rooms : Rooms) : Rooms :=
  rooms.map (fun e => (e.1, e.2.erase p))

/-- The outbound message kinds the server emits. -/
inductive Msg where
  | activeStreamsMsg (ids : List StreamId)
  | streamExists (id : StreamId)
  | streamCreated (id : StreamId)
  | streamStarted (id : StreamId)
  | streamerDisconnected (id : StreamId)
  | viewerJoined (viewerId : Pid) (viewerCount : Nat)
  | streamJoined (id : StreamId) (streamerId : Pid)
  | createOffer (viewerId : Pid) (id : StreamId)
  | streamNotFound (id : StreamId) (availableStreams : List StreamId)
  | viewerLeft (viewerId : Pid) (viewerCount : Nat)
  | streamEnded (id : StreamId)
  | streamEndedBroadcast (id : StreamId)
deriving DecidableEq

/-- One emit call: `socket.emit` (to the handling socket itself),
`socket.to(pid)` (unicast, sender excluded), `socket.to(room)` (room
members, sender excluded), `socket.broadcast.emit` (everyone but the
sender). -/
inductive Emit where
  | toSelf (target : Pid) (m : Msg)
  | toPid (sender target : Pid) (m : Msg)
  | toRoom (room : StreamId) (sender : Pid) (m : Msg)
  | broadcast (sender : Pid) (m : Msg)
deriving DecidableEq

/-- The server state the handlers touch: the registry and room membership. -/
structure ServerState where
  activeStreams : Registry
  rooms : Rooms
deriving DecidableEq

def emptyState : ServerState := ⟨[], []⟩

/-- `io.on('connection', ...)` body before any event: sends the list of
currently-active stream ids to the newly connected socket. -/
def onConnection (st : ServerState) (sock : Pid) : ServerState × List Emit :=
  (st, [Emit.toSelf sock (Msg.activeStreamsMsg (st.activeStreams.map Prod.fst))])

/-- `socket.on('create-stream', ...)`: reject a duplicate id with
`stream-exists`; otherwise insert a fresh session (empty viewer set,
current timestamp), join the room, confirm to the creator and broadcast
`stream-started` to everyone else. -/
def onCreateStream (st : ServerState) (sock : Pid) (streamId : StreamId) (now : Nat) :
    ServerState × List Emit :=
  if (findStream streamId st.activeStreams).isSome then
    (st, [Emit.toSelf sock (Msg.streamExists streamId)])
  else
    ({ activeStreams := st.activeStreams ++ [(streamId, ⟨sock, [], now⟩)],
       rooms := joinRoom streamId sock st.rooms },
     [Emit.toSelf sock (Msg.streamCreated streamId),
      Emit.broadcast sock (Msg.streamStarted streamId)])

/-- `socket.on('join-stream', ...)`: absent id emits `stream-not-found`
(with the list of available streams); a present id whose streamer is not
among the connected sockets (`conn`) is deleted and the joiner told
`streamer-disconnected`; otherwise the joiner is added to the viewer set
and the room, the streamer is told `viewer-joined` (with the new count)
and `create-offer`, and the joiner receives `stream-joined`. -/
def onJoinStream (conn : List Pid) (st : ServerState) (sock : Pid) (streamId : StreamId) :
    ServerState × List Emit :=
  match findStream streamId st.activeStreams with
  | none =>
      (st, [Emit.toSelf sock (Msg.streamNotFound streamId (st.activeStreams.map Prod.fst))])
  | some s =>
      if s.streamer ∈ conn then
        let s' : Session := { s with viewers := setAdd s.viewers sock }
        ({ activeStreams := updateStream streamId s' st.activeStreams,
           rooms := joinRoom streamId sock st.rooms },
         [Emit.toPid sock s.streamer (Msg.viewerJoined sock s'.viewers.length),
          Emit.toSelf sock (Msg.streamJoined streamId s.streamer),
          Emit.toPid sock s.streamer (Msg.createOffer sock streamId)])
      else
        ({ st with activeStreams := deleteStream streamId st.activeStreams },
         [Emit.toSelf sock (Msg.streamerDisconnected streamId)])

/-- `socket.on('leave-stream', ...)`: only a real membership is removed,
and then the streamer is told `viewer-left` with the new count; anything
else is a silent no-op. -/
def onLeaveStream (st : ServerState) (sock : Pid) (streamId : StreamId) :
    ServerState × List Emit :=
  match findStream streamId st.activeStreams with
  | some s =>
      if sock ∈ s.viewers then
        let s' : Session := { s with viewers := s.viewers.erase sock }
        ({ st with activeStreams := updateStream streamId s' st.activeStreams },
         [Emit.toPid sock s.streamer (Msg.viewerLeft sock s'.viewers.length)])
      else (st, [])
  | none => (st, [])

/-- The per-entry body of the `disconnect` loop: a session streamed by the
leaver is dropped (room-wide `stream-ended`, global
`stream-ended-broadcast`); a session the leaver viewed loses that viewer
and its streamer hears `viewer-left`; other sessions are untouched. -/
def disconnectStreams (sock : Pid) : Registry → Registry × List Emit
  | [] => ([], [])
  | e :: rest =>
      let r := disconnectStreams sock rest
      if e.2.streamer = sock then
        (r.1,
         Emit.toRoom e.1 sock (Msg.streamEnded e.1) ::
         Emit.broadcast sock (Msg.streamEndedBroadcast e.1) :: r.2)
      else if sock ∈ e.2.viewers then
        let v := e.2.viewers.erase sock
        ((e.1, { e.2 with viewers := v }) :: r.1,
         Emit.toPid sock e.2.streamer (Msg.viewerLeft sock v.length) :: r.2)
      else (e :: r.1, r.2)

/-- `socket.on('disconnect', ...)`: sweep the registry as above; the
transport also removes the socket from every room. -/
def onDisconnect (st : ServerState) (sock : Pid) : ServerState × List Emit :=
  let r := disconnectStreams sock st.activeStreams
  ({ activeStreams := r.1, rooms := leaveAllRooms sock st.rooms }, r.2)

/-- The hard-coded two-hour age limit (`2 * 60 * 60 * 1000` ms). -/
def twoHoursMs : Nat := 2 * 60 * 60 * 1000

/-- The body of the `setInterval` cleanup with the age threshold factored
out: a session is deleted exactly when `now - createdAt > maxAge`
(so it is kept when the age is at most `maxAge`). -/
def sweepStreams (maxAge now : Nat) (l : Registry) : Registry :=
  l.filter (fun e => decide (now - e.2.createdAt ≤ maxAge))

/-- The periodic cleanup as the source runs it: threshold fixed at two
hours, sessions removed silently — the loop emits nothing. -/
def sweepOldStreams (st : ServerState) (now : Nat) : ServerState × List Emit :=
  ({ st with activeStreams := sweepStreams twoHoursMs now st.activeStreams }, [])

/-- Whether participant `q` receives emit `e` (room membership read from
state `st`): `socket.to` never delivers back to the sender. -/
def receives (st : ServerState) (e : Emit) (q : Pid) : Bool :=
  match e with
  | .toSelf t _ => decide (q = t)
  | .toPid sender t _ => decide (q = t) && !(decide (q = sender))
  | .toRoom room sender _ => decide (q ∈ roomMembers st.rooms room) && !(decide (q = sender))
  | .broadcast sender _ => !(decide (q = sender))

/-- A client-driven registry operation (the sequences claim C7 ranges
over): create, join or leave, each performed by a participant. -/
inductive ClientOp where
  | create (p : Pid) (id : StreamId) (now : Nat)
  | join (p : Pid) (id : StreamId)
  | leave (p : Pid) (id : StreamId)

/-- Run one client operation through the corresponding handler,
forgetting the emits. -/
def stepOp (conn : List Pid) (st : ServerState) : ClientOp → ServerState
  | .create p id now => (onCreateStream st p id now).1
  | .join p id => (onJoinStream conn st p id).1
  | .leave p id => (onLeaveStream st p id).1

/-- Run a sequence of client operations from the empty server state. -/
def runOps (conn : List Pid) (ops : List ClientOp) : ServerState :=
  ops.foldl (stepOp conn) emptyState

/-! ## Specification-side registry model

For the accounting claim the spec's own wording of the registry
operations (§4.1: `create` rejects duplicates, `addViewer` is an
idempotent set insert, `removeViewer` removes if present, a join whose
streamer is unreachable destroys the session) is transcribed with the
viewer set as a genuine `Finset`, so that "the number of distinct
still-joined viewer identities" is literally `viewersF.card`.  The code
model above is then proved to refine it. -/

structure SpecSession where
  streamer : Pid
  viewersF : Finset Pid
  createdAt : Nat
deriving DecidableEq

abbrev SpecRegistry := List (StreamId × SpecSession)

def specFind (id : StreamId) : SpecRegistry → Option SpecSession
  | [] => none
  | e :: rest => if e.1 = id then some e.2 else specFind id rest

def specUpdate (id : StreamId) (s : SpecSession) : SpecRegistry → SpecRegistry
  | [] => []
  | e :: rest => if e.1 = id then (id, s) :: rest else e :: specUpdate id s rest

def specDelete (id : StreamId) (l : SpecRegistry) : SpecRegistry :=
  l.filter (fun e => decide (¬ e.1 = id))

/-- One spec-level registry operation, following §4.1 of the spec. -/
def specStep (conn : List Pid) (reg : SpecRegistry) : ClientOp → SpecRegistry
  | .create p id now =>
      if (specFind id reg).isSome then reg else reg ++ [(id, ⟨p, ∅, now⟩)]
  | .join p id =>
      match specFind id reg with
      | none => reg
      | some s =>
          if s.streamer ∈ conn then
            specUpdate id { s with viewersF := insert p s.viewersF } reg
          else specDelete id reg
  | .leave p id =>
      match specFind id reg with
      | some s =>
          if p ∈ s.viewersF then
            specUpdate id { s with viewersF := s.viewersF.erase p } reg
          else reg
      | none => reg

def specRun (conn : List Pid) (ops : List ClientOp) : SpecRegistry :=
  ops.foldl (specStep conn) []

/-- Abstraction of a concrete session: forget the insertion order of the
viewer list. -/
def absSession (s : Session) : SpecSession :=
  ⟨s.streamer, s.viewers.toFinset, s.createdAt⟩

def absRegistry (l : Registry) : SpecRegistry :=
  l.map (fun e => (e.1, absSession e.2))

/-- Every viewer list in the registry is duplicate-free (it embeds a JS
`Set`). -/
def ViewersNodup (l : Registry) : Prop :=
  ∀ e ∈ l, e.2.viewers.Nodup

/-- The spec invariant: no session's streamer is in its own viewer set. -/
def NoSelfView (l : Registry) : Prop :=
  ∀ e ∈ l, e.2.streamer ∉ e.2.viewers

/-! ## Concrete states used by witnesses and counterexamples -/

def exampleConn : List Pid := ["P1", "P2", "P3"]

/-- P1 creates "s", P2 joins it, P3 creates "t", P1 joins "t": P1 is then
simultaneously the streamer of "s" and a viewer of "t". -/
def exampleOps : List ClientOp :=
  [ClientOp.create "P1" "s" 10, ClientOp.join "P2" "s",
   ClientOp.create "P3" "t" 30, ClientOp.join "P1" "t"]

def exampleState : ServerState := runOps exampleConn exampleOps

/-- A registry holding one session that is past the two-hour age limit
and still has a viewer. -/
def expiredState : ServerState :=
  ⟨[("old", ⟨"P1", ["V1"], 0⟩)], [("old", ["P1", "V1"])]⟩

/-! ## Association-list and viewer-set lemmas -/

theorem findStream_mem {id : StreamId} {l : Registry} {s : Session}
    (h : findStream id l = some s) : (id, s) ∈ l := by
  induction l with
  | nil => simp [findStream] at h
  | cons e rest ih =>
      rw [findStream] at h
      by_cases he : e.1 = id
      · rw [if_pos he] at h
        obtain ⟨e1, e2⟩ := e
        obtain rfl : e2 = s := by simpa using h
        simp_all
      · rw [if_neg he] at h
        exact List.mem_cons_of_mem e (ih h)

theorem updateStream_self {id : StreamId} {l : Registry} {s : Session}
    (h : findStream id l = some s) : updateStream id s l = l := by
  induction l with
  | nil => simp [findStream] at h
  | cons e rest ih =>
      rw [findStream] at h
      rw [updateStream]
      by_cases he : e.1 = id
      · rw [if_pos he] at h
        obtain ⟨e1, e2⟩ := e
        obtain rfl : e2 = s := by simpa using h
        simp_all
      · rw [if_neg he] at h
        rw [if_neg he, ih h]

theorem findStream_eq_none {id : StreamId} {l : Registry}
    (h : id ∉ l.map Prod.fst) : findStream id l = none := by
  induction l with
  | nil => rfl
  | cons e rest ih =>
      simp only [List.map_cons, List.mem_cons, not_or] at h
      rw [findStream, if_neg (fun he => h.1 he.symm), ih h.2]

theorem mem_deleteStream {e : StreamId × Session} {id : StreamId} {l : Registry}
    (h : e ∈ deleteStream id l) : e ∈ l :=
  List.mem_of_mem_filter h

theorem findStream_deleteStream_self (id : StreamId) (l : Registry) :
    findStream id (deleteStream id l) = none := by
  induction l with
  | nil => rfl
  | cons e rest ih =>
      by_cases he : e.1 = id
      · simpa [deleteStream, List.filter_cons, he] using ih
      · simpa [deleteStream, List.filter_cons, he, findStream] using ih

theorem findStream_deleteStream_ne {id' id : StreamId} (h : id' ≠ id) (l : Registry) :
    findStream id' (deleteStream id l) = findStream id' l := by
  induction l with
  | nil => rfl
  | cons e rest ih =>
      by_cases he : e.1 = id
      · have hne : ¬ e.1 = id' := fun hh => h (hh.symm.trans he)
        have hdrop : deleteStream id (e :: rest) = deleteStream id rest := by
          simp [deleteStream, List.filter_cons, he]
        rw [hdrop, findStream, if_neg hne, ih]
      · have hkeep : deleteStream id (e :: rest) = e :: deleteStream id rest := by
          simp [deleteStream, List.filter_cons, he]
        rw [hkeep, findStream, findStream]
        by_cases he' : e.1 = id'
        · rw [if_pos he', if_pos he']
        · rw [if_neg he', if_neg he', ih]

theorem mem_updateStream {e : StreamId × Session} {id : StreamId} {s : Session}
    {l : Registry} (h : e ∈ updateStream id s l) : e = (id, s) ∨ e ∈ l := by
  induction l with
  | nil => simp [updateStream] at h
  | cons e' rest ih =>
      rw [updateStream] at h
      by_cases he : e'.1 = id
      · rw [if_pos he] at h
        rcases List.mem_cons.mp h with h1 | h1
        · exact Or.inl h1
        · exact Or.inr (List.mem_cons_of_mem e' h1)
      · rw [if_neg he] at h
        rcases List.mem_cons.mp h with h1 | h1
        · exact Or.inr (h1 ▸ List.mem_cons_self e' rest)
        · rcases ih h1 with h2 | h2
          · exact Or.inl h2
          · exact Or.inr (List.mem_cons_of_mem e' h2)

theorem mem_setAdd {v : List Pid} {p x : Pid} (h : x ∈ setAdd v p) :
    x ∈ v ∨ x = p := by
  rw [setAdd] at h
  by_cases hp : p ∈ v
  · rw [if_pos hp] at h; exact Or.inl h
  · rw [if_neg hp] at h
    rcases List.mem_append.mp h with h1 | h1
    · exact Or.inl h1
    · exact Or.inr (by simpa using h1)

theorem setAdd_of_mem {v : List Pid} {p : Pid} (h : p ∈ v) : setAdd v p = v := by
  rw [setAdd, if_pos h]

theorem setAdd_nodup {v : List Pid} {p : Pid} (h : v.Nodup) : (setAdd v p).Nodup := by
  rw [setAdd]
  by_cases hp : p ∈ v
  · rw [if_pos hp]; exact h
  · rw [if_neg hp]
    simpa [List.nodup_append] using ⟨h, hp⟩

theorem toFinset_setAdd (v : List Pid) (p : Pid) :
    (setAdd v p).toFinset = insert p v.toFinset := by
  rw [setAdd]
  by_cases hp : p ∈ v
  · rw [if_pos hp]
    exact (Finset.insert_eq_self.mpr (List.mem_toFinset.mpr hp)).symm
  · rw [if_neg hp, List.toFinset_append]
    simp [Finset.insert_eq, Finset.union_comm]

theorem toFinset_erase_of_nodup {v : List Pid} (p : Pid) (h : v.Nodup) :
    (v.erase p).toFinset = v.toFinset.erase p := by
  ext x
  simp [List.mem_toFinset, h.mem_erase_iff, Finset.mem_erase]

/-! ## Lemmas about the disconnect loop -/

theorem disconnectStreams_cons_streamer {sock : Pid} {e : StreamId × Session}
    {rest : Registry} (h : e.2.streamer = sock) :
    disconnectStreams sock (e :: rest) =
      ((disconnectStreams sock rest).1,
       Emit.toRoom e.1 sock (Msg.streamEnded e.1) ::
       Emit.broadcast sock (Msg.streamEndedBroadcast e.1) ::
       (disconnectStreams sock rest).2) := by
  simp [disconnectStreams, h]

theorem disconnectStreams_cons_viewer {sock : Pid} {e : StreamId × Session}
    {rest : Registry} (h1 : ¬ e.2.streamer = sock) (h2 : sock ∈ e.2.viewers) :
    disconnectStreams sock (e :: rest) =
      ((e.1, { e.2 with viewers := e.2.viewers.erase sock }) ::
         (disconnectStreams sock rest).1,
       Emit.toPid sock e.2.streamer
         (Msg.viewerLeft sock (e.2.viewers.erase sock).length) ::
       (disconnectStreams sock rest).2) := by
  simp [disconnectStreams, h1, h2]

theorem disconnectStreams_cons_other {sock : Pid} {e : StreamId × Session}
    {rest : Registry} (h1 : ¬ e.2.streamer = sock) (h2 : sock ∉ e.2.viewers) :
    disconnectStreams sock (e :: rest) =
      (e :: (disconnectStreams sock rest).1, (disconnectStreams sock rest).2) := by
  simp [disconnectStreams, h1, h2]

theorem disconnectStreams_keys_sublist (sock : Pid) (l : Registry) :
    List.Sublist ((disconnectStreams sock l).1.map Prod.fst) (l.map Prod.fst) := by
  induction l with
  | nil => simp [disconnectStreams]
  | cons e rest ih =>
      by_cases h1 : e.2.streamer = sock
      · rw [disconnectStreams_cons_streamer h1]
        exact ih.trans (List.sublist_cons_self e.1 _)
      · by_cases h2 : sock ∈ e.2.viewers
        · rw [disconnectStreams_cons_viewer h1 h2]
          simpa using ih.cons₂ e.1
        · rw [disconnectStreams_cons_other h1 h2]
          simpa using ih.cons₂ e.1

theorem findStream_disconnect_of_streamer {sock : Pid} {l : Registry} {A : StreamId}
    {sA : Session} (hnd : (l.map Prod.fst).Nodup) (hfind : findStream A l = some sA)
    (hstr : sA.streamer = sock) :
    findStream A (disconnectStreams sock l).1 = none := by
  induction l with
  | nil => simp [findStream] at hfind
  | cons e rest ih =>
      rw [List.map_cons, List.nodup_cons] at hnd
      rw [findStream] at hfind
      by_cases he : e.1 = A
      · rw [if_pos he] at hfind
        obtain rfl : e.2 = sA := by simpa using hfind
        rw [disconnectStreams_cons_streamer hstr]
        apply findStream_eq_none
        intro hmem
        have hsub := (disconnectStreams_keys_sublist sock rest).subset hmem
        exact hnd.1 (he ▸ hsub)
      · rw [if_neg he] at hfind
        have ihr := ih hnd.2 hfind
        by_cases h1 : e.2.streamer = sock
        · rw [disconnectStreams_cons_streamer h1]; exact ihr
        · by_cases h2 : sock ∈ e.2.viewers
          · rw [disconnectStreams_cons_viewer h1 h2, findStream, if_neg he]; exact ihr
          · rw [disconnectStreams_cons_other h1 h2, findStream, if_neg he]; exact ihr

theorem findStream_disconnect_of_viewer {sock : Pid} {l : Registry} {B : StreamId}
    {sB : Session} (hfind : findStream B l = some sB) (hstr : ¬ sB.streamer = sock)
    (hv : sock ∈ sB.viewers) :
    findStream B (disconnectStreams sock l).1
      = some { sB with viewers := sB.viewers.erase sock } := by
  induction l with
  | nil => simp [findStream] at hfind
  | cons e rest ih =>
      rw [findStream] at hfind
      by_cases he : e.1 = B
      · rw [if_pos he] at hfind
        obtain rfl : e.2 = sB := by simpa using hfind
        rw [disconnectStreams_cons_viewer hstr hv, findStream, if_pos he]
      · rw [if_neg he] at hfind
        have ihr := ih hfind
        by_cases h1 : e.2.streamer = sock
        · rw [disconnectStreams_cons_streamer h1]; exact ihr
        · by_cases h2 : sock ∈ e.2.viewers
          · rw [disconnectStreams_cons_viewer h1 h2, findStream, if_neg he]; exact ihr
          · rw [disconnectStreams_cons_other h1 h2, findStream, if_neg he]; exact ihr

theorem disconnect_emits_streamEnded {sock : Pid} {l : Registry} {A : StreamId}
    {sA : Session} (hmem : (A, sA) ∈ l) (hstr : sA.streamer = sock) :
    Emit.toRoom A sock (Msg.streamEnded A) ∈ (disconnectStreams sock l).2 := by
  induction l with
  | nil => simp at hmem
  | cons e rest ih =>
      rcases List.mem_cons.mp hmem with h | h
      · obtain rfl : e = (A, sA) := h.symm
        rw [disconnectStreams_cons_streamer hstr]
        exact List.mem_cons_self _ _
      · have ihr := ih h
        by_cases h1 : e.2.streamer = sock
        · rw [disconnectStreams_cons_streamer h1]
          exact List.mem_cons_of_mem _ (List.mem_cons_of_mem _ ihr)
        · by_cases h2 : sock ∈ e.2.viewers
          · rw [disconnectStreams_cons_viewer h1 h2]
            exact List.mem_cons_of_mem _ ihr
          · rw [disconnectStreams_cons_other h1 h2]; exact ihr

theorem disconnect_emits_viewerLeft {sock : Pid} {l : Registry} {B : StreamId}
    {sB : Session} (hmem : (B, sB) ∈ l) (hstr : ¬ sB.streamer = sock)
    (hv : sock ∈ sB.viewers) :
    Emit.toPid sock sB.streamer (Msg.viewerLeft sock (sB.viewers.erase sock).length)
      ∈ (disconnectStreams sock l).2 := by
  induction l with
  | nil => simp at hmem
  | cons e rest ih =>
      rcases List.mem_cons.mp hmem with h | h
      · obtain rfl : e = (B, sB) := h.symm
        rw [disconnectStreams_cons_viewer hstr hv]
        exact List.mem_cons_self _ _
      · have ihr := ih h
        by_cases h1 : e.2.streamer = sock
        · rw [disconnectStreams_cons_streamer h1]
          exact List.mem_cons_of_mem _ (List.mem_cons_of_mem _ ihr)
        · by_cases h2 : sock ∈ e.2.viewers
          · rw [disconnectStreams_cons_viewer h1 h2]
            exact List.mem_cons_of_mem _ ihr
          · rw [disconnectStreams_cons_other h1 h2]; exact ihr

theorem mem_disconnectStreams {sock : Pid} {l : Registry} {e : StreamId × Session}
    (h : e ∈ (disconnectStreams sock l).1) :
    ∃ e' ∈ l, e.1 = e'.1 ∧ e.2.streamer = e'.2.streamer ∧
      ∀ x ∈ e.2.viewers, x ∈ e'.2.viewers := by
  induction l with
  | nil => simp [disconnectStreams] at h
  | cons e' rest ih =>
      by_cases h1 : e'.2.streamer = sock
      · rw [disconnectStreams_cons_streamer h1] at h
        obtain ⟨f, hf, hp⟩ := ih h
        exact ⟨f, List.mem_cons_of_mem e' hf, hp⟩
      · by_cases h2 : sock ∈ e'.2.viewers
        · rw [disconnectStreams_cons_viewer h1 h2] at h
          rcases List.mem_cons.mp h with h3 | h3
          · refine ⟨e', List.mem_cons_self e' rest, ?_⟩
            subst h3
            exact ⟨rfl, rfl, fun x hx => List.mem_of_mem_erase hx⟩
          · obtain ⟨f, hf, hp⟩ := ih h3
            exact ⟨f, List.mem_cons_of_mem e' hf, hp⟩
        · rw [disconnectStreams_cons_other h1 h2] at h
          rcases List.mem_cons.mp h with h3 | h3
          · exact ⟨e', List.mem_cons_self e' rest, by subst h3; exact ⟨rfl, rfl, fun x hx => hx⟩⟩
          · obtain ⟨f, hf, hp⟩ := ih h3
            exact ⟨f, List.mem_cons_of_mem e' hf, hp⟩

/-! ## Refinement of the registry by the spec-side model -/

theorem specFind_absRegistry (id : StreamId) (l : Registry) :
    specFind id (absRegistry l) = (findStream id l).map absSession := by
  induction l with
  | nil => rfl
  | cons e rest ih =>
      by_cases he : e.1 = id
      · simp [absRegistry, specFind, findStream, he]
      · simpa [absRegistry, specFind, findStream, he] using ih

theorem absRegistry_updateStream (id : StreamId) (s : Session) (l : Registry) :
    absRegistry (updateStream id s l) = specUpdate id (absSession s) (absRegistry l) := by
  induction l with
  | nil => rfl
  | cons e rest ih =>
      by_cases he : e.1 = id
      · simp [absRegistry, updateStream, specUpdate, he]
      · simpa [absRegistry, updateStream, specUpdate, he] using ih

theorem absRegistry_deleteStream (id : StreamId) (l : Registry) :
    absRegistry (deleteStream id l) = specDelete id (absRegistry l) := by
  induction l with
  | nil => rfl
  | cons e rest ih =>
      by_cases he : e.1 = id
      · simpa [absRegistry, deleteStream, specDelete, List.filter_cons, he] using ih
      · simpa [absRegistry, deleteStream, specDelete, List.filter_cons, he] using ih

theorem absRegistry_append (l m : Registry) :
    absRegistry (l ++ m) = absRegistry l ++ absRegistry m := by
  simp [absRegistry]

theorem viewersNodup_updateStream {id : StreamId} {s : Session} {l : Registry}
    (h : ViewersNodup l) (hs : s.viewers.Nodup) :
    ViewersNodup (updateStream id s l) := by
  intro e he
  rcases mem_updateStream he with h1 | h1
  · rw [h1]; exact hs
  · exact h e h1

/-- One client operation commutes with the abstraction into the
spec-side registry and keeps viewer lists duplicate-free. -/
theorem abs_stepOp (conn : List Pid) (st : ServerState) (op : ClientOp)
    (h : ViewersNodup st.activeStreams) :
    absRegistry (stepOp conn st op).activeStreams
      = specStep conn (absRegistry st.activeStreams) op
    ∧ ViewersNodup (stepOp conn st op).activeStreams := by
  cases op with
  | create p id now =>
      by_cases hdup : (findStream id st.activeStreams).isSome
      · have hdup' : (specFind id (absRegistry st.activeStreams)).isSome := by
          rw [specFind_absRegistry]
          simpa using hdup
        simp only [stepOp, onCreateStream, if_pos hdup, specStep, if_pos hdup']
        exact ⟨by simp, h⟩
      · have hdup' : ¬ (specFind id (absRegistry st.activeStreams)).isSome := by
          rw [specFind_absRegistry]
          exact fun hc => hdup (by simpa using hc)
        simp only [stepOp, onCreateStream, if_neg hdup, specStep, if_neg hdup']
        constructor
        · rw [absRegistry_append]
          simp [absRegistry, absSession]
        · intro e he
          rcases List.mem_append.mp he with h1 | h1
          · exact h e h1
          · obtain rfl : e = (id, ⟨p, [], now⟩) := by simpa using h1
            exact List.nodup_nil
  | join p id =>
      cases hf : findStream id st.activeStreams with
      | none =>
          have hf' : specFind id (absRegistry st.activeStreams) = none := by
            rw [specFind_absRegistry, hf]; rfl
          simp only [stepOp, onJoinStream, hf, specStep, hf']
          exact ⟨by simp, h⟩
      | some s =>
          have hf' : specFind id (absRegistry st.activeStreams) = some (absSession s) := by
            rw [specFind_absRegistry, hf]; rfl
          have hnd : s.viewers.Nodup := h (id, s) (findStream_mem hf)
          by_cases hc : s.streamer ∈ conn
          · have hc' : (absSession s).streamer ∈ conn := hc
            simp only [stepOp, onJoinStream, hf, if_pos hc, specStep, hf', if_pos hc']
            constructor
            · rw [absRegistry_updateStream]
              have : absSession { s with viewers := setAdd s.viewers p }
                  = { absSession s with viewersF := insert p (absSession s).viewersF } := by
                simp [absSession, toFinset_setAdd]
              rw [this]
            · exact viewersNodup_updateStream h (setAdd_nodup hnd)
          · have hc' : (absSession s).streamer ∉ conn := hc
            simp only [stepOp, onJoinStream, hf, if_neg hc, specStep, hf', if_neg hc']
            constructor
            · exact absRegistry_deleteStream id st.activeStreams
            · exact fun e he => h e (mem_deleteStream he)
  | leave p id =>
      cases hf : findStream id st.activeStreams with
      | none =>
          have hf' : specFind id (absRegistry st.activeStreams) = none := by
            rw [specFind_absRegistry, hf]; rfl
          simp only [stepOp, onLeaveStream, hf, specStep, hf']
          exact ⟨by simp, h⟩
      | some s =>
          have hf' : specFind id (absRegistry st.activeStreams) = some (absSession s) := by
            rw [specFind_absRegistry, hf]; rfl
          have hnd : s.viewers.Nodup := h (id, s) (findStream_mem hf)
          by_cases hm : p ∈ s.viewers
          · have hm' : p ∈ (absSession s).viewersF := List.mem_toFinset.mpr hm
            simp only [stepOp, onLeaveStream, hf, if_pos hm, specStep, hf', if_pos hm']
            constructor
            · rw [absRegistry_updateStream]
              have : absSession { s with viewers := s.viewers.erase p }
                  = { absSession s with viewersF := (absSession s).viewersF.erase p } := by
                simp [absSession, toFinset_erase_of_nodup p hnd]
              rw [this]
            · exact viewersNodup_updateStream h (hnd.erase p)
          · have hm' : p ∉ (absSession s).viewersF := fun hc => hm (List.mem_toFinset.mp hc)
            simp only [stepOp, onLeaveStream, hf, if_neg hm, specStep, hf', if_neg hm']
            exact ⟨by simp, h⟩

/-- Folding a sequence of client operations preserves the refinement. -/
theorem abs_foldl (conn : List Pid) (ops : List ClientOp) :
    ∀ st : ServerState, ViewersNodup st.activeStreams →
      absRegistry ((ops.foldl (stepOp conn) st).activeStreams)
        = ops.foldl (specStep conn) (absRegistry st.activeStreams)
      ∧ ViewersNodup ((ops.foldl (stepOp conn) st).activeStreams) := by
  induction ops with
  | nil => exact fun st h => ⟨rfl, h⟩
  | cons op rest ih =>
      intro st h
      obtain ⟨h1, h2⟩ := abs_stepOp conn st op h
      obtain ⟨h3, h4⟩ := ih (stepOp conn st op) h2
      rw [List.foldl_cons, List.foldl_cons]
      exact ⟨by rw [h3, h1], h4⟩

theorem abs_runOps (conn : List Pid) (ops : List ClientOp) :
    absRegistry (runOps conn ops).activeStreams = specRun conn ops
    ∧ ViewersNodup (runOps conn ops).activeStreams := by
  have h := abs_foldl conn ops emptyState (by intro e he; simp [emptyState] at he)
  simpa [runOps, specRun, emptyState, absRegistry] using h

/-! ## Preservation of the no-self-view invariant -/

theorem noSelfView_create {st : ServerState} {sock : Pid} {id : StreamId} {now : Nat}
    (h : NoSelfView st.activeStreams) :
    NoSelfView (onCreateStream st sock id now).1.activeStreams := by
  rw [onCreateStream]
  by_cases hdup : (findStream id st.activeStreams).isSome
  · rw [if_pos hdup]; exact h
  · rw [if_neg hdup]
    intro e he
    rcases List.mem_append.mp he with h1 | h1
    · exact h e h1
    · obtain rfl : e = (id, ⟨sock, [], now⟩) := by simpa using h1
      simp

theorem noSelfView_join {conn : List Pid} {st : ServerState} {sock : Pid} {id : StreamId}
    (h : NoSelfView st.activeStreams)
    (hsock : ∀ s, findStream id st.activeStreams = some s → sock ≠ s.streamer) :
    NoSelfView (onJoinStream conn st sock id).1.activeStreams := by
  cases hf : findStream id st.activeStreams with
  | none => simp only [onJoinStream, hf]; exact h
  | some s =>
      by_cases hc : s.streamer ∈ conn
      · simp only [onJoinStream, hf, if_pos hc]
        intro e he
        rcases mem_updateStream he with h1 | h1
        · rw [h1]
          intro hmem
          rcases mem_setAdd hmem with h2 | h2
          · exact h (id, s) (findStream_mem hf) h2
          · exact hsock s hf h2.symm
        · exact h e h1
      · simp only [onJoinStream, hf, if_neg hc]
        exact fun e he => h e (mem_deleteStream he)

theorem noSelfView_leave {st : ServerState} {sock : Pid} {id : StreamId}
    (h : NoSelfView st.activeStreams) :
    NoSelfView (onLeaveStream st sock id).1.activeStreams := by
  cases hf : findStream id st.activeStreams with
  | none => simp only [onLeaveStream, hf]; exact h
  | some s =>
      by_cases hm : sock ∈ s.viewers
      · simp only [onLeaveStream, hf, if_pos hm]
        intro e he
        rcases mem_updateStream he with h1 | h1
        · rw [h1]
          exact fun hmem => h (id, s) (findStream_mem hf) (List.mem_of_mem_erase hmem)
        · exact h e h1
      · simp only [onLeaveStream, hf, if_neg hm]; exact h

theorem noSelfView_disconnect {st : ServerState} {sock : Pid}
    (h : NoSelfView st.activeStreams) :
    NoSelfView (onDisconnect st sock).1.activeStreams := by
  intro e he
  simp only [onDisconnect] at he
  obtain ⟨e', he', hkey, hstr, hsub⟩ := mem_disconnectStreams he
  intro hmem
  exact h e' he' (hstr ▸ hsub e.2.streamer hmem)

theorem noSelfView_sweep {st : ServerState} {now : Nat}
    (h : NoSelfView st.activeStreams) :
    NoSelfView (sweepOldStreams st now).1.activeStreams := by
  intro e he
  exact h e (List.mem_of_mem_filter he)

/-! ## Claim theorems -/

/-- C1: a create-stream request whose id already exists is answered with
`stream-exists` only, the whole server state is unchanged, and the
existing session (its streamer and viewer set included) is still stored
under the id. -/
theorem claim_create_duplicate :
    ∀ (st : ServerState) (sock : Pid) (id : StreamId) (now : Nat) (s : Session),
      findStream id st.activeStreams = some s →
      onCreateStream st sock id now = (st, [Emit.toSelf sock (Msg.streamExists id)])
      ∧ findStream id (onCreateStream st sock id now).1.activeStreams = some s := by
  intro st sock id now s hf
  have hdup : (findStream id st.activeStreams).isSome := by rw [hf]; rfl
  rw [onCreateStream, if_pos hdup]
  exact ⟨rfl, hf⟩

/-- Witness for C1 at a concrete registry. -/
theorem claim_create_duplicate_witness :
    onCreateStream exampleState "PX" "s" 99
      = (exampleState, [Emit.toSelf "PX" (Msg.streamExists "s")])
    ∧ findStream "s" (onCreateStream exampleState "PX" "s" 99).1.activeStreams
      = some ⟨"P1", ["P2"], 10⟩ :=
  claim_create_duplicate exampleState "PX" "s" 99 ⟨"P1", ["P2"], 10⟩ (by decide)

/-- C2 counterexample: a streamer that sends join-stream for its own
session is added to its own viewer set, so the claimed invariant fails on
the code at this input. -/
theorem claim_no_self_view_counterexample :
    findStream "s"
        (onJoinStream ["P1"] (onCreateStream emptyState "P1" "s" 0).1 "P1" "s").1.activeStreams
      = some ⟨"P1", ["P1"], 0⟩
    ∧ (Session.mk "P1" ["P1"] 0).streamer ∈ (Session.mk "P1" ["P1"] 0).viewers :=
  ⟨by decide, by decide⟩

/-- C2 (amended): every operation preserves the no-self-view invariant,
provided no join-stream request is sent by the streamer of its target
session — the handler itself never inserts a streamer into its own
viewer set on any other input. -/
theorem claim_no_self_view_amended :
    ∀ st : ServerState, NoSelfView st.activeStreams →
      (∀ sock id now, NoSelfView (onCreateStream st sock id now).1.activeStreams)
      ∧ (∀ conn sock id,
          (∀ s, findStream id st.activeStreams = some s → sock ≠ s.streamer) →
          NoSelfView (onJoinStream conn st sock id).1.activeStreams)
      ∧ (∀ sock id, NoSelfView (onLeaveStream st sock id).1.activeStreams)
      ∧ (∀ sock, NoSelfView (onDisconnect st sock).1.activeStreams)
      ∧ (∀ now, NoSelfView (sweepOldStreams st now).1.activeStreams) := by
  intro st h
  exact ⟨fun sock id now => noSelfView_create h,
         fun conn sock id hsock => noSelfView_join h hsock,
         fun sock id => noSelfView_leave h,
         fun sock => noSelfView_disconnect h,
         fun now => noSelfView_sweep h⟩

/-- Witness for the amended C2 at a concrete reachable state. -/
theorem claim_no_self_view_amended_witness :
    (∀ e ∈ (onDisconnect exampleState "P1").1.activeStreams,
      e.2.streamer ∉ e.2.viewers)
    ∧ (∀ e ∈ (onJoinStream exampleConn exampleState "P2" "t").1.activeStreams,
      e.2.streamer ∉ e.2.viewers) := by
  have h := claim_no_self_view_amended exampleState
    (by exact (by decide : ∀ e ∈ exampleState.activeStreams, e.2.streamer ∉ e.2.viewers))
  exact ⟨h.2.2.2.1 "P1",
         h.2.1 exampleConn "P2" "t" (fun s hs => by
           have he : findStream "t" exampleState.activeStreams
               = some (⟨"P3", ["P1"], 30⟩ : Session) := by decide
           rw [he] at hs
           obtain rfl : (⟨"P3", ["P1"], 30⟩ : Session) = s := by simpa using hs
           decide)⟩

/-- C3: a join for an existing session whose recorded streamer is not
connected deletes that session (every other session is untouched), sends
only `streamer-disconnected` to the requester, and does not add the
requester anywhere (the room state is also unchanged). -/
theorem claim_join_stale_streamer :
    ∀ (conn : List Pid) (st : ServerState) (sock : Pid) (id : StreamId) (s : Session),
      findStream id st.activeStreams = some s →
      s.streamer ∉ conn →
      (onJoinStream conn st sock id).1.activeStreams = deleteStream id st.activeStreams
      ∧ findStream id (onJoinStream conn st sock id).1.activeStreams = none
      ∧ (∀ id', id' ≠ id →
          findStream id' (onJoinStream conn st sock id).1.activeStreams
            = findStream id' st.activeStreams)
      ∧ (onJoinStream conn st sock id).2 = [Emit.toSelf sock (Msg.streamerDisconnected id)]
      ∧ (onJoinStream conn st sock id).1.rooms = st.rooms := by
  intro conn st sock id s hf hc
  simp only [onJoinStream, hf, if_neg hc]
  exact ⟨by simp, findStream_deleteStream_self id st.activeStreams,
         fun id' hne => findStream_deleteStream_ne hne st.activeStreams,
         by simp, by simp⟩

/-- Witness for C3 at a concrete registry with an unreachable streamer. -/
theorem claim_join_stale_streamer_witness :
    (onJoinStream ["P2"] exampleState "PX" "s").1.activeStreams
      = deleteStream "s" exampleState.activeStreams
    ∧ findStream "s" (onJoinStream ["P2"] exampleState "PX" "s").1.activeStreams = none
    ∧ findStream "t" (onJoinStream ["P2"] exampleState "PX" "s").1.activeStreams
      = findStream "t" exampleState.activeStreams
    ∧ (onJoinStream ["P2"] exampleState "PX" "s").2
      = [Emit.toSelf "PX" (Msg.streamerDisconnected "s")]
    ∧ (onJoinStream ["P2"] exampleState "PX" "s").1.rooms = exampleState.rooms := by
  have h := claim_join_stale_streamer ["P2"] exampleState "PX" "s" ⟨"P1", ["P2"], 10⟩
    (by decide) (by decide)
  exact ⟨h.1, h.2.1, h.2.2.1 "t" (by decide), h.2.2.2.1, h.2.2.2.2⟩

/-- C4: when a participant is at once the streamer of session `A` and a
viewer of a different session `B`, its disconnect removes `A` entirely
(emitting `stream-ended` into `A`'s room, received by every remaining
viewer of `A`), while `B` survives with exactly that viewer removed and
`B`'s streamer is sent `viewer-left` with the decreased count. -/
theorem claim_disconnect_dual_role :
    ∀ (st : ServerState) (p : Pid) (A B : StreamId) (sA sB : Session),
      (st.activeStreams.map Prod.fst).Nodup →
      findStream A st.activeStreams = some sA →
      sA.streamer = p →
      findStream B st.activeStreams = some sB →
      ¬ sB.streamer = p →
      p ∈ sB.viewers →
      (∀ v ∈ sA.viewers, v ∈ roomMembers st.rooms A) →
      findStream A (onDisconnect st p).1.activeStreams = none
      ∧ findStream B (onDisconnect st p).1.activeStreams
          = some { sB with viewers := sB.viewers.erase p }
      ∧ Emit.toRoom A p (Msg.streamEnded A) ∈ (onDisconnect st p).2
      ∧ (∀ v ∈ sA.viewers, v ≠ p →
          receives st (Emit.toRoom A p (Msg.streamEnded A)) v = true)
      ∧ Emit.toPid p sB.streamer (Msg.viewerLeft p (sB.viewers.erase p).length)
          ∈ (onDisconnect st p).2
      ∧ (sB.viewers.erase p).length + 1 = sB.viewers.length := by
  intro st p A B sA sB hnd hfA hstrA hfB hstrB hvB hroom
  simp only [onDisconnect]
  refine ⟨findStream_disconnect_of_streamer hnd hfA hstrA,
          findStream_disconnect_of_viewer hfB hstrB hvB,
          disconnect_emits_streamEnded (findStream_mem hfA) hstrA,
          ?_,
          disconnect_emits_viewerLeft (findStream_mem hfB) hstrB hvB,
          List.length_erase_add_one hvB⟩
  intro v hv hne
  simp [receives, hroom v hv, hne]

/-- Witness for C4: P1 streams "s" (viewer P2) and views "t"; its
disconnect ends "s" and shrinks "t". -/
theorem claim_disconnect_dual_role_witness :
    findStream "s" (onDisconnect exampleState "P1").1.activeStreams = none
    ∧ findStream "t" (onDisconnect exampleState "P1").1.activeStreams
        = some ⟨"P3", List.erase ["P1"] "P1", 30⟩
    ∧ Emit.toRoom "s" "P1" (Msg.streamEnded "s") ∈ (onDisconnect exampleState "P1").2
    ∧ receives exampleState (Emit.toRoom "s" "P1" (Msg.streamEnded "s")) "P2" = true
    ∧ Emit.toPid "P1" "P3" (Msg.viewerLeft "P1" (List.erase ["P1"] "P1").length)
        ∈ (onDisconnect exampleState "P1").2
    ∧ (List.erase ["P1"] "P1").length + 1 = (["P1"] : List Pid).length := by
  have h := claim_disconnect_dual_role exampleState "P1" "s" "t"
    ⟨"P1", ["P2"], 10⟩ ⟨"P3", ["P1"], 30⟩
    (by decide) (by decide) (by decide) (by decide) (by decide) (by decide)
    (by decide)
  exact ⟨h.1, h.2.1, h.2.2.1, h.2.2.2.1 "P2" (by decide) (by decide),
         h.2.2.2.2.1, h.2.2.2.2.2⟩

/-- C5: one pass of the sweep keeps an entry exactly when its age is not
above the threshold (so it removes exactly the sessions with
`now - createdAt > maxAge`), keeps survivors unchanged and in order, is
idempotent, and the installed periodic sweep is this pass at the
two-hour default. -/
theorem claim_sweep_exact :
    ∀ (maxAge now : Nat) (l : Registry),
      (∀ e : StreamId × Session,
        e ∈ sweepStreams maxAge now l ↔ (e ∈ l ∧ ¬ now - e.2.createdAt > maxAge))
      ∧ List.Sublist (sweepStreams maxAge now l) l
      ∧ sweepStreams maxAge now (sweepStreams maxAge now l) = sweepStreams maxAge now l
      ∧ ∀ st : ServerState,
          (sweepOldStreams st now).1.activeStreams
            = sweepStreams twoHoursMs now st.activeStreams := by
  intro maxAge now l
  refine ⟨?_, List.filter_sublist l, ?_, fun st => rfl⟩
  · intro e
    simp [sweepStreams, List.mem_filter, Nat.not_lt]
  · simp [sweepStreams, List.filter_filter]

/-- Witness for C5 at a concrete expired registry. -/
theorem claim_sweep_exact_witness :
    (("old", ⟨"P1", ["V1"], 0⟩) ∈
        sweepStreams twoHoursMs (twoHoursMs + 1) expiredState.activeStreams
      ↔ (("old", ⟨"P1", ["V1"], 0⟩) ∈ expiredState.activeStreams
          ∧ ¬ (twoHoursMs + 1) - (Session.mk "P1" ["V1"] 0).createdAt > twoHoursMs))
    ∧ (sweepOldStreams expiredState (twoHoursMs + 1)).1.activeStreams
        = sweepStreams twoHoursMs (twoHoursMs + 1) expiredState.activeStreams := by
  have h := claim_sweep_exact twoHoursMs (twoHoursMs + 1) expiredState.activeStreams
  exact ⟨h.1 ("old", ⟨"P1", ["V1"], 0⟩), h.2.2.2 expiredState⟩

/-- C6 counterexample: the sweep destroys an expired session that still
has a viewer, yet emits no message at all — no "session ended" broadcast
is sent to the prior viewers. -/
theorem claim_sweep_broadcast_counterexample :
    findStream "old" expiredState.activeStreams = some ⟨"P1", ["V1"], 0⟩
    ∧ findStream "old" (sweepOldStreams expiredState (twoHoursMs + 1)).1.activeStreams = none
    ∧ (sweepOldStreams expiredState (twoHoursMs + 1)).2 = [] :=
  ⟨by decide, by decide, rfl⟩

/-- C6 (amended): the periodic sweep removes expired sessions silently;
it emits no message, so destroyed sessions' viewers are never notified. -/
theorem claim_sweep_silent :
    ∀ (st : ServerState) (now : Nat), (sweepOldStreams st now).2 = [] :=
  fun _ _ => rfl

/-- C7: along any create/join/leave sequence from the empty registry the
concrete registry refines the spec-side one, so each session's viewer
list is duplicate-free and its length is the number of distinct
still-joined viewer identities; moreover a re-join by a present viewer
leaves the registry unchanged and a leave without membership (or without
a session) is a complete no-op. -/
theorem claim_viewer_accounting :
    ∀ (conn : List Pid) (ops : List ClientOp),
      (∀ (id : StreamId) (s : Session),
        findStream id (runOps conn ops).activeStreams = some s →
        s.viewers.Nodup
        ∧ specFind id (specRun conn ops) = some (absSession s)
        ∧ s.viewers.length = (absSession s).viewersF.card)
      ∧ (∀ (st : ServerState) (sock : Pid) (id : StreamId) (s : Session),
          findStream id st.activeStreams = some s → s.streamer ∈ conn →
          sock ∈ s.viewers →
          (onJoinStream conn st sock id).1.activeStreams = st.activeStreams)
      ∧ (∀ (st : ServerState) (sock : Pid) (id : StreamId) (s : Session),
          findStream id st.activeStreams = some s → sock ∉ s.viewers →
          onLeaveStream st sock id = (st, []))
      ∧ (∀ (st : ServerState) (sock : Pid) (id : StreamId),
          findStream id st.activeStreams = none →
          onLeaveStream st sock id = (st, [])) := by
  intro conn ops
  obtain ⟨habs, hnodup⟩ := abs_runOps conn ops
  refine ⟨?_, ?_, ?_, ?_⟩
  · intro id s hf
    have hnd := hnodup (id, s) (findStream_mem hf)
    refine ⟨hnd, ?_, ?_⟩
    · rw [← habs, specFind_absRegistry, hf]; rfl
    · exact (List.toFinset_card_of_nodup hnd).symm
  · intro st sock id s hf hc hm
    simp only [onJoinStream, hf, if_pos hc]
    rw [setAdd_of_mem hm]
    exact updateStream_self hf
  · intro st sock id s hf hm
    simp [onLeaveStream, hf, hm]
  · intro st sock id hf
    simp [onLeaveStream, hf]

/-- Witness for C7: P1 creates "s" and P2 joins; the accounting, a
redundant re-join and redundant leaves evaluated concretely. -/
theorem claim_viewer_accounting_witness :
    ((["P2"] : List Pid).Nodup
      ∧ specFind "s"
          (specRun ["P1", "P2"] [ClientOp.create "P1" "s" 0, ClientOp.join "P2" "s"])
        = some (absSession ⟨"P1", ["P2"], 0⟩)
      ∧ (["P2"] : List Pid).length = (absSession ⟨"P1", ["P2"], 0⟩).viewersF.card)
    ∧ (onJoinStream ["P1", "P2"]
          (runOps ["P1", "P2"] [ClientOp.create "P1" "s" 0, ClientOp.join "P2" "s"])
          "P2" "s").1.activeStreams
      = (runOps ["P1", "P2"] [ClientOp.create "P1" "s" 0, ClientOp.join "P2" "s"]).activeStreams
    ∧ onLeaveStream
        (runOps ["P1", "P2"] [ClientOp.create "P1" "s" 0, ClientOp.join "P2" "s"]) "P3" "s"
      = (runOps ["P1", "P2"] [ClientOp.create "P1" "s" 0, ClientOp.join "P2" "s"], [])
    ∧ onLeaveStream
        (runOps ["P1", "P2"] [ClientOp.create "P1" "s" 0, ClientOp.join "P2" "s"]) "P3" "zzz"
      = (runOps ["P1", "P2"] [ClientOp.create "P1" "s" 0, ClientOp.join "P2" "s"], []) := by
  have h := claim_viewer_accounting ["P1", "P2"]
    [ClientOp.create "P1" "s" 0, ClientOp.join "P2" "s"]
  exact ⟨h.1 "s" ⟨"P1", ["P2"], 0⟩ (by decide),
         h.2.1 _ "P2" "s" ⟨"P1", ["P2"], 0⟩ (by decide) (by decide) (by decide),
         h.2.2.1 _ "P3" "s" ⟨"P1", ["P2"], 0⟩ (by decide) (by decide),
         h.2.2.2 _ "P3" "zzz" (by decide)⟩

/-- C8: a join naming an id that is not in the registry changes nothing
at all and answers only `stream-not-found` (with the list of known ids
as a diagnostic). -/
theorem claim_join_not_found :
    ∀ (conn : List Pid) (st : ServerState) (sock : Pid) (id : StreamId),
      findStream id st.activeStreams = none →
      onJoinStream conn st sock id
        = (st, [Emit.toSelf sock
            (Msg.streamNotFound id (st.activeStreams.map Prod.fst))]) := by
  intro conn st sock id hf
  simp [onJoinStream, hf]

/-- Witness for C8 at a concrete registry. -/
theorem claim_join_not_found_witness :
    onJoinStream ["P1"] exampleState "PX" "zzz"
      = (exampleState, [Emit.toSelf "PX"
          (Msg.streamNotFound "zzz" (exampleState.activeStreams.map Prod.fst))]) :=
  claim_join_not_found ["P1"] exampleState "PX" "zzz" (by decide)

/-- C9: a join by a participant already in the viewer set (with the
streamer reachable) leaves the registry unchanged yet still emits
`viewer-joined` to the streamer with the unchanged count, `stream-joined`
to the requester, and `create-offer` to the streamer — duplicate
notifications. -/
theorem claim_rejoin_duplicate_notify :
    ∀ (conn : List Pid) (st : ServerState) (sock : Pid) (id : StreamId) (s : Session),
      findStream id st.activeStreams = some s → s.streamer ∈ conn →
      sock ∈ s.viewers →
      (onJoinStream conn st sock id).1.activeStreams = st.activeStreams
      ∧ (onJoinStream conn st sock id).2
        = [Emit.toPid sock s.streamer (Msg.viewerJoined sock s.viewers.length),
           Emit.toSelf sock (Msg.streamJoined id s.streamer),
           Emit.toPid sock s.streamer (Msg.createOffer sock id)] := by
  intro conn st sock id s hf hc hm
  constructor
  · simp only [onJoinStream, hf, if_pos hc]
    rw [setAdd_of_mem hm]
    exact updateStream_self hf
  · simp only [onJoinStream, hf, if_pos hc]
    rw [setAdd_of_mem hm]

/-- Witness for C9: P2 re-joins "s" which it already views. -/
theorem claim_rejoin_duplicate_notify_witness :
    (onJoinStream exampleConn exampleState "P2" "s").1.activeStreams
      = exampleState.activeStreams
    ∧ (onJoinStream exampleConn exampleState "P2" "s").2
      = [Emit.toPid "P2" "P1" (Msg.viewerJoined "P2" (["P2"] : List Pid).length),
         Emit.toSelf "P2" (Msg.streamJoined "s" "P1"),
         Emit.toPid "P2" "P1" (Msg.createOffer "P2" "s")] :=
  claim_rejoin_duplicate_notify exampleConn exampleState "P2" "s" ⟨"P1", ["P2"], 10⟩
    (by decide) (by decide) (by decide)

/-- C10: every new connection is immediately sent the full list of
active session ids, and every successful create broadcasts the new id to
all other connected participants. -/
theorem claim_session_ids_disclosed :
    (∀ (st : ServerState) (sock : Pid),
      (onConnection st sock).2
        = [Emit.toSelf sock (Msg.activeStreamsMsg (st.activeStreams.map Prod.fst))])
    ∧ (∀ (st : ServerState) (sock : Pid) (id : StreamId) (now : Nat),
      findStream id st.activeStreams = none →
      (onCreateStream st sock id now).2
        = [Emit.toSelf sock (Msg.streamCreated id),
           Emit.broadcast sock (Msg.streamStarted id)]) := by
  constructor
  · intro st sock; rfl
  · intro st sock id now hf
    have hdup : ¬ (findStream id st.activeStreams).isSome = true := by rw [hf]; simp
    rw [onCreateStream, if_neg hdup]

/-- Witness for C10 at a concrete registry. -/
theorem claim_session_ids_disclosed_witness :
    (onConnection exampleState "Q").2
      = [Emit.toSelf "Q" (Msg.activeStreamsMsg (exampleState.activeStreams.map Prod.fst))]
    ∧ (onCreateStream exampleState "Q" "new" 50).2
      = [Emit.toSelf "Q" (Msg.streamCreated "new"),
         Emit.broadcast "Q" (Msg.streamStarted "new")] :=
  ⟨claim_session_ids_disclosed.1 exampleState "Q",
   claim_session_ids_disclosed.2 exampleState "Q" "new" 50 (by decide)⟩

end HomeCamera
